import Mathlib

/-!
# Measurement-device container (`oop-laba7.cpp`)

A shallow embedding of the device hierarchy and of `MeasurementDeviceContainer`.

Modelling conventions:
* `double` is the type `Double` below: IEEE 754 binary64 with NaN, the two infinities,
  the two zeros, and round-to-nearest-even after every arithmetic operation; a finite
  non-zero double is carried as the rational number it denotes.
* `enum class` values are their underlying integer, because the program builds them with
  `static_cast` from unchecked integers (values outside the named ones are representable).
* `std::unique_ptr<MeasurementDevice>` is the pointed-to object, with its dynamic type
  as the constructor of `Device`; a raw `MeasurementDevice*` result is `Option Device`
  (`none` for `nullptr`).
* `size_t` indices are natural numbers.
* Every member function that writes to `std::cout` returns the new state together with
  the list of chunks it wrote.
-/

namespace OopLaba7

/-! ## Enumerations -/

/-- The enumeration `Material { Plastic, Metal, Glass }`, as its underlying integer. -/
structure Material where
  value : Int
deriving DecidableEq

def Material.Plastic : Material := ⟨0⟩
def Material.Metal : Material := ⟨1⟩
def Material.Glass : Material := ⟨2⟩

/-- The enumeration `TemperatureScale { Celsius, Fahrenheit, Kelvin }`, as its underlying
integer. -/
structure TemperatureScale where
  value : Int
deriving DecidableEq

def TemperatureScale.Celsius : TemperatureScale := ⟨0⟩
/-- A value of type `double`. `finite 0` is the positive zero; `finite q` for `q ≠ 0` is
the double whose value is `q` (the operations below only ever produce representable
values of `q`). -/
inductive Double where
  | nan
  | posInf
  | negInf
  | negZero
  | finite (value : ℚ)
deriving DecidableEq

namespace Double

/-- How the arithmetic looks at a double: NaN, an infinity with its sign bit, or a finite
number with its sign bit (the sign bit tells the two zeros apart). -/
inductive View where
  | nan
  | inf (sign : Bool)
  | fin (sign : Bool) (value : ℚ)

def view : Double → View
  | .nan => .nan
  | .posInf => .inf false
  | .negInf => .inf true
  | .negZero => .fin true 0
  | .finite q => .fin (decide (q < 0)) q

/-- The infinity with the given sign bit. -/
def infinity (sign : Bool) : Double := if sign then negInf else posInf

/-- The zero with the given sign bit. -/
def zero (sign : Bool) : Double := if sign then negZero else finite 0

/-- The whole number nearest to `n / d`, the even one of the two when `n / d` lies
exactly halfway. -/
def roundHalfEven (n d : Nat) : Nat :=
  if 2 * (n % d) < d then n / d
  else if d < 2 * (n % d) then n / d + 1
  else if (n / d) % 2 = 0 then n / d
  else n / d + 1

/-- The largest `k ≤ 2047` with `d * 2^k ≤ n`, and 0 when there is none, found bit by bit
from the highest bit of `k` down. -/
def quantumShift (n d : Nat) : Nat :=
  [1024, 512, 256, 128, 64, 32, 16, 8, 4, 2, 1].foldl
    (fun k s => if d <<< (k + s) ≤ n then k + s else k) 0

/-- Rounding of the exact result `num / den` of an operation to binary64, to nearest,
ties to even. For `|num| / den` the shift `k` is the binary exponent of that number plus
1022 (0 in the subnormal range), so the doubles around it are the whole multiples of
`2^(k - 1074)`; `m` is the nearest multiple. A result that rounds to `2^1024` or more
becomes an infinity, one that rounds to nothing a zero, both with the sign of `num`.
`zeroSign` is the sign bit of the result when the exact result itself is zero. -/
def round (num : Int) (den : Nat) (zeroSign : Bool) : Double :=
  if num = 0 then zero zeroSign
  else
    let k := quantumShift (num.natAbs <<< 1022) den
    let m := roundHalfEven (num.natAbs <<< 1074) (den <<< k)
    if m = 0 then zero (decide (num < 0))
    else if 1 <<< 2098 ≤ m <<< k then infinity (decide (num < 0))
    else finite (mkRat ((if num < 0 then -1 else 1) * Int.ofNat (m <<< k)) (1 <<< 1074))

/-- The double nearest to a rational number. -/
def ofRat (q : ℚ) : Double := round q.num q.den false

/-- The double denoted by a decimal literal of the program text, given by its digits and
the number of digits after the point: `9.0` is `ofDecimal 90 1`, `32` is
`ofDecimal 32 0`, `273.15` is `ofDecimal 27315 2`. The literal denotes the nearest
double. -/
def ofDecimal (digits : Int) (fractionDigits : Nat) : Double :=
  round digits (10 ^ fractionDigits) false

/-- The comparison `a < b` of two doubles: false as soon as one side is NaN. -/
def lt (a b : Double) : Bool :=
  match a.view, b.view with
  | .nan, _ => false
  | _, .nan => false
  | .inf s, .inf t => s && !t
  | .inf s, .fin _ _ => s
  | .fin _ _, .inf t => !t
  | .fin _ v, .fin _ w => decide (v < w)

/-- The comparison `a <= b` of two doubles: false as soon as one side is NaN. -/
def le (a b : Double) : Bool :=
  match a.view, b.view with
  | .nan, _ => false
  | _, .nan => false
  | .inf s, .inf t => s || !t
  | .inf s, .fin _ _ => s
  | .fin _ _, .inf t => !t
  | .fin _ v, .fin _ w => decide (v ≤ w)

/-- Where a double that is not NaN stands in the order of the extended number line; the
two zeros stand at the same place. (NaN, which has no place, is put at the bottom.) -/
def rank : Double → WithBot (WithTop ℚ)
  | .nan => ⊥
  | .negInf => ⊥
  | .posInf => ((⊤ : WithTop ℚ) : WithBot (WithTop ℚ))
  | .negZero => (((0 : ℚ) : WithTop ℚ) : WithBot (WithTop ℚ))
  | .finite q => ((q : WithTop ℚ) : WithBot (WithTop ℚ))

end Double

/-! ## `class MeasurementDevice` -/

/-- The data members of `class MeasurementDevice`. -/
structure MeasurementDevice where
  name : String
  unit : String
  minValue : Double
  maxValue : Double
  material : Material
  isDeviceActiveForMeasurement : Bool
deriving DecidableEq

/-- The constructor `MeasurementDevice(name, unit, minValue, maxValue, material)`: the
active flag starts as `false`. -/
def MeasurementDevice.new (name unit : String) (minValue maxValue : Double)
    (material : Material) : MeasurementDevice :=
  { name := name, unit := unit, minValue := minValue, maxValue := maxValue,
    material := material, isDeviceActiveForMeasurement := false }

/-- The base `MeasurementDevice::startMeasuring`. -/
def MeasurementDevice.startMeasuring (d : MeasurementDevice) :
    MeasurementDevice × List String :=
  if !d.isDeviceActiveForMeasurement then
    ({ d with isDeviceActiveForMeasurement := true }, ["\nStart of measurement\n"])
  else
    (d, [])

/-- The base `MeasurementDevice::stopMeasuring`. -/
def MeasurementDevice.stopMeasuring (d : MeasurementDevice) :
    MeasurementDevice × List String :=
  if d.isDeviceActiveForMeasurement then
    ({ d with isDeviceActiveForMeasurement := false }, ["End of measurement\n\n"])
  else
    (d, [])

def MeasurementDevice.getName (d : MeasurementDevice) : String := d.name

def MeasurementDevice.getMinValue (d : MeasurementDevice) : Double := d.minValue

def MeasurementDevice.getMaxValue (d : MeasurementDevice) : Double := d.maxValue

def MeasurementDevice.getMaterial (d : MeasurementDevice) : Material := d.material

/-! ## `class TemperatureMeasurementDevice : public MeasurementDevice` -/

/-- The data members of `class TemperatureMeasurementDevice`: the base sub-object plus
`currentTemperature` and `temperatureScale`. -/
structure TemperatureMeasurementDevice extends MeasurementDevice where
  currentTemperature : Double
  temperatureScale : TemperatureScale
deriving DecidableEq

/-- The constructor `TemperatureMeasurementDevice(name, unit, minValue, maxValue, material,
scale)`: base constructor, then `currentTemperature(0.0)` and `temperatureScale(scale)`. -/
def TemperatureMeasurementDevice.new (name unit : String) (minValue maxValue : Double)
    (material : Material) (scale : TemperatureScale) : TemperatureMeasurementDevice :=
  { toMeasurementDevice := MeasurementDevice.new name unit minValue maxValue material,
    currentTemperature := Double.ofDecimal 0 1, temperatureScale := scale }

/-- The override `TemperatureMeasurementDevice::startMeasuring`: the base version, then
one more line of output. -/
def TemperatureMeasurementDevice.startMeasuring (d : TemperatureMeasurementDevice) :
    TemperatureMeasurementDevice × List String :=
  let r := d.toMeasurementDevice.startMeasuring
  ({ d with toMeasurementDevice := r.1 }, r.2 ++ ["Temperature measurement started\n"])

/-- The override `TemperatureMeasurementDevice::stopMeasuring`: the base version, then
one more line of output. -/
def TemperatureMeasurementDevice.stopMeasuring (d : TemperatureMeasurementDevice) :
    TemperatureMeasurementDevice × List String :=
  let r := d.toMeasurementDevice.stopMeasuring
  ({ d with toMeasurementDevice := r.1 }, r.2 ++ ["Temperature measurement stopped\n"])

/-- The member `TemperatureMeasurementDevice::setCurrentTemperature`. -/
def TemperatureMeasurementDevice.setCurrentTemperature (d : TemperatureMeasurementDevice)
    (newTemperature : Double) : TemperatureMeasurementDevice × List String :=
  if d.isDeviceActiveForMeasurement then
    ({ d with currentTemperature := newTemperature }, [])
  else
    (d, ["Device is not ACTIVE!!!\n"])

def TemperatureMeasurementDevice.getCurrentTemperature (d : TemperatureMeasurementDevice) :
    Double := d.currentTemperature

/-- What a `std::unique_ptr<MeasurementDevice>` owns: an object whose dynamic type is
either the base class or `TemperatureMeasurementDevice`. -/
inductive Device where
  | plain (d : MeasurementDevice)
  | temperature (d : TemperatureMeasurementDevice)
deriving DecidableEq

/-- The base sub-object (the implicit upcast to `MeasurementDevice`). -/
def Device.base : Device → MeasurementDevice
  | .plain d => d
  | .temperature d => d.toMeasurementDevice

/-- The cast `dynamic_cast<TemperatureMeasurementDevice*>`: `none` is the null result. -/
def Device.asTemperature : Device → Option TemperatureMeasurementDevice
  | .plain _ => none
  | .temperature d => some d

def Device.getName (d : Device) : String := d.base.getName

def Device.getMinValue (d : Device) : Double := d.base.getMinValue

def Device.getMaxValue (d : Device) : Double := d.base.getMaxValue

def Device.isActive (d : Device) : Bool := d.base.isDeviceActiveForMeasurement

/-- The virtual call `device->startMeasuring()`. -/
def Device.startMeasuring : Device → Device × List String
  | .plain d => ((.plain d.startMeasuring.1), d.startMeasuring.2)
  | .temperature d => ((.temperature d.startMeasuring.1), d.startMeasuring.2)

/-- The virtual call `device->stopMeasuring()`. -/
def Device.stopMeasuring : Device → Device × List String
  | .plain d => ((.plain d.stopMeasuring.1), d.stopMeasuring.2)
  | .temperature d => ((.temperature d.stopMeasuring.1), d.stopMeasuring.2)

/-! ## Library routines used by the container

`std::vector::insert` and `std::sort` belong to the C++ standard library, not to the
program. They are given executable models here: insertion before a position, and the
insertion sort that the library runs on short ranges, which consults nothing but the
comparator. -/

/-- The call `v.insert(v.begin() + pos, x)` for `pos ≤ v.size()`: `x` lands at position
`pos`, the elements from `pos` on move one place to the right. -/
def vectorInsert {α : Type} (v : List α) (pos : Nat) (x : α) : List α :=
  v.take pos ++ x :: v.drop pos

/-- Linear insertion of `val` into an ordered range walked from its last element towards
its first (the argument lists the range back to front): `val` passes every element
`prev` with `comp val prev` and stops at the first one where the comparator says no. -/
def unguardedLinearInsert {α : Type} (comp : α → α → Bool) (val : α) : List α → List α
  | [] => [val]
  | prev :: rest =>
    if comp val prev then prev :: unguardedLinearInsert comp val rest
    else val :: prev :: rest

/-- One round of the insertion sort: `val`, the element right after the ordered range
`sortedRange`, goes to the front when it compares less than the first element, and is
inserted linearly from the back otherwise. -/
def insertionStep {α : Type} (comp : α → α → Bool) (sortedRange : List α) (val : α) :
    List α :=
  match sortedRange with
  | [] => [val]
  | first :: _ =>
    if comp val first then val :: sortedRange
    else (unguardedLinearInsert comp val sortedRange.reverse).reverse

/-- The call `std::sort(v.begin(), v.end(), comp)`. -/
def stdSort {α : Type} (comp : α → α → Bool) (v : List α) : List α :=
  v.foldl (insertionStep comp) []

/-! ## `class MeasurementDeviceContainer` -/

/-- The data members of `class MeasurementDeviceContainer`. -/
structure MeasurementDeviceContainer where
  devices : List Device
  currentDeviceIndex : Nat
deriving DecidableEq

/-- What can go wrong in a member function: an access outside the vector, which the
program does not check. -/
inductive Fault where
  | outOfBounds
deriving DecidableEq

namespace MeasurementDeviceContainer

/-- The constructor `MeasurementDeviceContainer() : currentDeviceIndex(0)`. -/
def new : MeasurementDeviceContainer :=
  { devices := [], currentDeviceIndex := 0 }

def getCurrentDeviceIndex (c : MeasurementDeviceContainer) : Nat := c.currentDeviceIndex

def getDeviceCount (c : MeasurementDeviceContainer) : Nat := c.devices.length

/-- The member `addDeviceToFront`: `devices.insert(devices.begin(), device)`. -/
def addDeviceToFront (c : MeasurementDeviceContainer) (device : Device) :
    MeasurementDeviceContainer :=
  { c with devices := vectorInsert c.devices 0 device }

/-- The member `addDeviceToBack`: `devices.push_back(device)`. -/
def addDeviceToBack (c : MeasurementDeviceContainer) (device : Device) :
    MeasurementDeviceContainer :=
  { c with devices := c.devices ++ [device] }

/-- The member `addDeviceAt`. -/
def addDeviceAt (c : MeasurementDeviceContainer) (device : Device) (index : Nat) :
    MeasurementDeviceContainer × List String :=
  if index ≤ c.devices.length then
    ({ c with devices := vectorInsert c.devices index device }, [])
  else
    (c, ["Invalid index. Device not added.\n"])

/-- The member `switchDevice`. -/
def switchDevice (c : MeasurementDeviceContainer) (index : Nat) :
    MeasurementDeviceContainer × List String :=
  if index < c.devices.length then
    ({ c with currentDeviceIndex := index },
      ["Switched to device " ++ toString (index + 1) ++ "\n"])
  else
    (c, ["Invalid device index.\n"])

/-- The member `getCurrentDevice`: `nullptr` on the empty container, otherwise
`devices[currentDeviceIndex].get()`, an unchecked access. -/
def getCurrentDevice (c : MeasurementDeviceContainer) : Except Fault (Option Device) :=
  if c.devices.isEmpty then .ok none
  else
    match c.devices[c.currentDeviceIndex]? with
    | some d => .ok (some d)
    | none => .error Fault.outOfBounds

/-- The member `findDevicesByName`: the loop over `devices` that pushes every device
whose name equals `searchName` onto `foundDevices`. The method is not `const`, so the
container after the call is part of the result. -/
def findDevicesByName (c : MeasurementDeviceContainer) (searchName : String) :
    MeasurementDeviceContainer × List Device :=
  (c, c.devices.foldl
    (fun foundDevices device =>
      if device.getName = searchName then foundDevices ++ [device] else foundDevices)
    [])

/-- The member `sortDevicesByMinValue`. -/
def sortDevicesByMinValue (c : MeasurementDeviceContainer) : MeasurementDeviceContainer :=
  { c with devices :=
      stdSort (fun a b => Double.lt a.getMinValue b.getMinValue) c.devices }

/-- The member `sortDevicesByMaxValue`. -/
def sortDevicesByMaxValue (c : MeasurementDeviceContainer) : MeasurementDeviceContainer :=
  { c with devices :=
      stdSort (fun a b => Double.lt a.getMaxValue b.getMaxValue) c.devices }

/-- The comparator of `sortDevicesByTemperature`. -/
def temperatureLess (a b : Device) : Bool :=
  match a.asTemperature with
  | some tempDeviceA =>
    match b.asTemperature with
    | some tempDeviceB =>
      Double.lt tempDeviceA.getCurrentTemperature tempDeviceB.getCurrentTemperature
    | none => false
  | none => false

/-- The member `sortDevicesByTemperature`. -/
def sortDevicesByTemperature (c : MeasurementDeviceContainer) :
    MeasurementDeviceContainer :=
  { c with devices := stdSort temperatureLess c.devices }

end MeasurementDeviceContainer

/-! ## Sequences of container operations -/

/-- One call of a state-changing member function of the container. -/
inductive ContainerOp where
  | addDeviceToFront (device : Device)
  | addDeviceToBack (device : Device)
  | addDeviceAt (device : Device) (index : Nat)
  | switchDevice (index : Nat)
  | sortDevicesByMinValue
  | sortDevicesByMaxValue
  | sortDevicesByTemperature

/-- The container after one operation. -/
def ContainerOp.run (c : MeasurementDeviceContainer) : ContainerOp →
    MeasurementDeviceContainer
  | .addDeviceToFront device => c.addDeviceToFront device
  | .addDeviceToBack device => c.addDeviceToBack device
  | .addDeviceAt device index => (c.addDeviceAt device index).1
  | .switchDevice index => (c.switchDevice index).1
  | .sortDevicesByMinValue => c.sortDevicesByMinValue
  | .sortDevicesByMaxValue => c.sortDevicesByMaxValue
  | .sortDevicesByTemperature => c.sortDevicesByTemperature

/-- The container after a sequence of operations, applied from left to right. -/
def runOps (c : MeasurementDeviceContainer) (ops : List ContainerOp) :
    MeasurementDeviceContainer :=
  ops.foldl ContainerOp.run c

/-! ## Sample devices -/

/-- A plain device with only its name and its two range bounds chosen; the bounds are
given as the numbers one would type. -/
def sampleDevice (name : String) (minValue maxValue : ℚ) : Device :=
  .plain (MeasurementDevice.new name "V" (Double.ofRat minValue) (Double.ofRat maxValue)
    Material.Metal)

/-- A plain device whose minValue and maxValue are any doubles, NaN included. -/
def sampleDeviceOfDoubles (name : String) (minValue maxValue : Double) : Device :=
  .plain (MeasurementDevice.new name "V" minValue maxValue Material.Metal)

/-- A temperature device as the constructor leaves it. -/
def sampleThermometer (name : String) : TemperatureMeasurementDevice :=
  TemperatureMeasurementDevice.new name "C" (Double.ofRat 0) (Double.ofRat 100)
    Material.Glass TemperatureScale.Celsius

/-- A temperature device that was constructed, started, and then given a reading. -/
def sampleReadingThermometer (name : String) (reading : ℚ) : TemperatureMeasurementDevice :=
  ((sampleThermometer name).startMeasuring.1.setCurrentTemperature
    (Double.ofRat reading)).1

/-! ## The menu loop of `main` -/

/-- The bound of `size_t` arithmetic: unsigned, 64 bits wide. -/
def sizeModulus : Nat := 2 ^ 64

/-- The `case 1` of the menu loop, switch to next device:
`container.switchDevice((container.getCurrentDeviceIndex() + 1) % container.getDeviceCount())`.
The sum is computed in `size_t`; the remainder by a zero device count is undefined, which
is the result `none`. -/
def mainSwitchToNextDevice (c : MeasurementDeviceContainer) :
    Option (MeasurementDeviceContainer × List String) :=
  if c.getDeviceCount = 0 then none
  else some
    (c.switchDevice (((c.getCurrentDeviceIndex + 1) % sizeModulus) % c.getDeviceCount))

/-- The menu choice 1 taken `k` times in a row. -/
def mainSwitchToNextDeviceTimes : Nat → MeasurementDeviceContainer →
    Option MeasurementDeviceContainer
  | 0, c => some c
  | k + 1, c =>
    match mainSwitchToNextDevice c with
    | none => none
    | some r => mainSwitchToNextDeviceTimes k r.1

/-! ## Facts about doubles

The rounding depends only on the value of the exact result, not on the fraction that
presents it, so every operation on finite doubles returns the rounding of the exact
rational result. -/

namespace Double

end Double

/-! ## Facts about the library models -/

section LibraryModels

variable {α : Type}

theorem vectorInsert_length (v : List α) (pos : Nat) (x : α) :
    (vectorInsert v pos x).length = v.length + 1 := by
  unfold vectorInsert
  simp only [List.length_append, List.length_cons, List.length_take, List.length_drop]
  omega

theorem vectorInsert_getElem? (v : List α) (pos : Nat) (x : α) (h : pos ≤ v.length) :
    (vectorInsert v pos x)[pos]? = some x := by
  unfold vectorInsert
  have hlen : (v.take pos).length = pos := by simp [List.length_take, h]
  rw [List.getElem?_append_right (by omega)]
  simp [hlen]

theorem vectorInsert_perm (v : List α) (pos : Nat) (x : α) :
    (vectorInsert v pos x).Perm (x :: v) := by
  unfold vectorInsert
  have h : (v.take pos ++ x :: v.drop pos).Perm (x :: (v.take pos ++ v.drop pos)) :=
    List.perm_middle
  simpa using h

theorem unguardedLinearInsert_perm (comp : α → α → Bool) (val : α) (l : List α) :
    (unguardedLinearInsert comp val l).Perm (val :: l) := by
  induction l with
  | nil => simp [unguardedLinearInsert]
  | cons prev rest ih =>
    unfold unguardedLinearInsert
    split
    · exact (List.Perm.cons prev ih).trans (List.Perm.swap val prev rest)
    · exact List.Perm.refl _

theorem insertionStep_perm (comp : α → α → Bool) (l : List α) (val : α) :
    (insertionStep comp l val).Perm (val :: l) := by
  cases l with
  | nil => simp [insertionStep]
  | cons first rest =>
    simp only [insertionStep]
    split
    · exact List.Perm.refl _
    · refine (List.reverse_perm _).trans ?_
      refine (unguardedLinearInsert_perm comp val _).trans ?_
      exact List.Perm.cons val (List.reverse_perm _)

theorem foldl_insertionStep_perm (comp : α → α → Bool) (v acc : List α) :
    (v.foldl (insertionStep comp) acc).Perm (acc ++ v) := by
  induction v generalizing acc with
  | nil => simp
  | cons x xs ih =>
    simp only [List.foldl_cons]
    refine (ih _).trans ?_
    refine (List.Perm.append_right xs (insertionStep_perm comp acc x)).trans ?_
    have hmid : (acc ++ x :: xs).Perm (x :: (acc ++ xs)) := List.perm_middle
    simpa using hmid.symm

theorem stdSort_perm (comp : α → α → Bool) (v : List α) : (stdSort comp v).Perm v := by
  simpa [stdSort] using foldl_insertionStep_perm comp v []

theorem stdSort_length (comp : α → α → Bool) (v : List α) :
    (stdSort comp v).length = v.length :=
  (stdSort_perm comp v).length_eq

variable {κ : Type} [LinearOrder κ]

theorem unguardedLinearInsert_descending (key : α → κ) (comp : α → α → Bool)
    (hcomp : ∀ a b, comp a b = true ↔ key a < key b) (val : α) (l : List α)
    (hl : l.Pairwise (fun a b => key b ≤ key a)) :
    (unguardedLinearInsert comp val l).Pairwise (fun a b => key b ≤ key a) := by
  induction l with
  | nil => simp [unguardedLinearInsert]
  | cons prev rest ih =>
    rw [List.pairwise_cons] at hl
    unfold unguardedLinearInsert
    split
    · rename_i hlt
      rw [hcomp] at hlt
      rw [List.pairwise_cons]
      refine ⟨?_, ih hl.2⟩
      intro b hb
      rcases List.mem_cons.mp ((unguardedLinearInsert_perm comp val rest).mem_iff.mp hb) with
        rfl | hb
      · exact le_of_lt hlt
      · exact hl.1 b hb
    · rename_i hnlt
      rw [hcomp, not_lt] at hnlt
      rw [List.pairwise_cons]
      refine ⟨?_, List.pairwise_cons.mpr hl⟩
      intro b hb
      rcases List.mem_cons.mp hb with rfl | hb
      · exact hnlt
      · exact le_trans (hl.1 b hb) hnlt

theorem insertionStep_ascending (key : α → κ) (comp : α → α → Bool)
    (hcomp : ∀ a b, comp a b = true ↔ key a < key b) (l : List α) (val : α)
    (hl : l.Pairwise (fun a b => key a ≤ key b)) :
    (insertionStep comp l val).Pairwise (fun a b => key a ≤ key b) := by
  cases l with
  | nil => simp [insertionStep]
  | cons first rest =>
    simp only [insertionStep]
    split
    · rename_i hlt
      rw [hcomp] at hlt
      rw [List.pairwise_cons]
      refine ⟨?_, hl⟩
      intro b hb
      rcases List.mem_cons.mp hb with rfl | hb
      · exact le_of_lt hlt
      · exact le_trans (le_of_lt hlt) ((List.pairwise_cons.mp hl).1 b hb)
    · rw [List.pairwise_reverse]
      apply unguardedLinearInsert_descending key comp hcomp
      rw [List.pairwise_reverse]
      exact hl

theorem foldl_insertionStep_ascending (key : α → κ) (comp : α → α → Bool)
    (hcomp : ∀ a b, comp a b = true ↔ key a < key b) (v acc : List α)
    (hacc : acc.Pairwise (fun a b => key a ≤ key b)) :
    (v.foldl (insertionStep comp) acc).Pairwise (fun a b => key a ≤ key b) := by
  induction v generalizing acc with
  | nil => simpa using hacc
  | cons x xs ih =>
    simp only [List.foldl_cons]
    exact ih _ (insertionStep_ascending key comp hcomp acc x hacc)

theorem stdSort_ascending (key : α → κ) (comp : α → α → Bool)
    (hcomp : ∀ a b, comp a b = true ↔ key a < key b) (v : List α) :
    (stdSort comp v).Pairwise (fun a b => key a ≤ key b) :=
  foldl_insertionStep_ascending key comp hcomp v [] List.Pairwise.nil

theorem vectorInsert_zero (v : List α) (x : α) : vectorInsert v 0 x = x :: v := by
  simp [vectorInsert]

theorem vectorInsert_size (v : List α) (x : α) : vectorInsert v v.length x = v ++ [x] := by
  simp [vectorInsert]

theorem vectorInsert_sublist (v : List α) (pos : Nat) (x : α) :
    v.Sublist (vectorInsert v pos x) := by
  unfold vectorInsert
  have h : (v.take pos ++ v.drop pos).Sublist (v.take pos ++ x :: v.drop pos) :=
    List.Sublist.append_left (List.sublist_cons_self x (v.drop pos)) (v.take pos)
  simpa using h

theorem vectorInsert_getElem?_after (v : List α) (pos : Nat) (x : α) (j : Nat)
    (hpos : pos ≤ v.length) (hj : pos ≤ j) :
    (vectorInsert v pos x)[j + 1]? = v[j]? := by
  unfold vectorInsert
  have hlen : (v.take pos).length = pos := by simp [List.length_take, hpos]
  rw [List.getElem?_append_right (by omega), hlen]
  have hidx : j + 1 - pos = (j - pos) + 1 := by omega
  rw [hidx, List.getElem?_cons_succ, List.getElem?_drop]
  congr 1
  omega

theorem unguardedLinearInsert_map {β : Type} (f : α → β) (lt : β → β → Bool) (val : α)
    (l : List α) :
    (unguardedLinearInsert (fun a b => lt (f a) (f b)) val l).map f
      = unguardedLinearInsert lt (f val) (l.map f) := by
  induction l with
  | nil => simp [unguardedLinearInsert]
  | cons prev rest ih =>
    simp only [unguardedLinearInsert, List.map_cons]
    split
    · simp [ih]
    · simp

theorem insertionStep_map {β : Type} (f : α → β) (lt : β → β → Bool) (l : List α)
    (val : α) :
    (insertionStep (fun a b => lt (f a) (f b)) l val).map f
      = insertionStep lt (l.map f) (f val) := by
  cases l with
  | nil => simp [insertionStep]
  | cons first rest =>
    simp only [insertionStep, List.map_cons]
    split
    · simp
    · rw [List.map_reverse, unguardedLinearInsert_map, List.map_reverse]
      simp

theorem foldl_insertionStep_map {β : Type} (f : α → β) (lt : β → β → Bool)
    (v acc : List α) :
    (v.foldl (insertionStep (fun a b => lt (f a) (f b))) acc).map f
      = (v.map f).foldl (insertionStep lt) (acc.map f) := by
  induction v generalizing acc with
  | nil => simp
  | cons x xs ih =>
    simp only [List.foldl_cons, List.map_cons]
    rw [ih, insertionStep_map]

theorem stdSort_map {β : Type} (f : α → β) (lt : β → β → Bool) (v : List α) :
    (stdSort (fun a b => lt (f a) (f b)) v).map f = stdSort lt (v.map f) := by
  simpa [stdSort] using foldl_insertionStep_map f lt v []

theorem unguardedLinearInsert_congr (comp comp' : α → α → Bool) (val : α) (l : List α)
    (h : ∀ b ∈ l, comp val b = comp' val b) :
    unguardedLinearInsert comp val l = unguardedLinearInsert comp' val l := by
  induction l with
  | nil => rfl
  | cons prev rest ih =>
    have hprev : comp val prev = comp' val prev := h prev (List.mem_cons_self _ _)
    have hrest := ih (fun b hb => h b (List.mem_cons_of_mem _ hb))
    simp only [unguardedLinearInsert, hprev, hrest]

theorem insertionStep_congr (comp comp' : α → α → Bool) (l : List α) (val : α)
    (h : ∀ b ∈ l, comp val b = comp' val b) :
    insertionStep comp l val = insertionStep comp' l val := by
  cases l with
  | nil => rfl
  | cons first rest =>
    have hfirst : comp val first = comp' val first := h first (List.mem_cons_self _ _)
    have hins := unguardedLinearInsert_congr comp comp' val (first :: rest).reverse
      (fun b hb => h b (List.mem_reverse.mp hb))
    simp only [insertionStep, hfirst, hins]

theorem foldl_insertionStep_congr (comp comp' : α → α → Bool) (v acc : List α)
    (h : ∀ a ∈ v, ∀ b ∈ acc ++ v, comp a b = comp' a b) :
    v.foldl (insertionStep comp) acc = v.foldl (insertionStep comp') acc := by
  induction v generalizing acc with
  | nil => rfl
  | cons x xs ih =>
    simp only [List.foldl_cons]
    have hstep : insertionStep comp acc x = insertionStep comp' acc x :=
      insertionStep_congr comp comp' acc x
        (fun b hb => h x (List.mem_cons_self _ _) b (List.mem_append_left _ hb))
    rw [← hstep]
    apply ih
    intro a ha b hb
    apply h a (List.mem_cons_of_mem _ ha) b
    rcases List.mem_append.mp hb with hb | hb
    · rcases List.mem_cons.mp ((insertionStep_perm comp acc x).mem_iff.mp hb) with rfl | hb
      · exact List.mem_append_right _ (List.mem_cons_self _ _)
      · exact List.mem_append_left _ hb
    · exact List.mem_append_right _ (List.mem_cons_of_mem _ hb)

theorem stdSort_congr (comp comp' : α → α → Bool) (v : List α)
    (h : ∀ a ∈ v, ∀ b ∈ v, comp a b = comp' a b) : stdSort comp v = stdSort comp' v :=
  foldl_insertionStep_congr comp comp' v [] (by simpa using h)

theorem stdSort_map_of_respects (comp : α → α → Bool) (g : α → α)
    (hg : ∀ a b, comp (g a) (g b) = comp a b) (v : List α) :
    stdSort comp (v.map g) = (stdSort comp v).map g := by
  have h := stdSort_map g comp v
  have hfun : (fun a b => comp (g a) (g b)) = comp := by
    funext a b
    exact hg a b
  rw [hfun] at h
  exact h.symm

theorem Double.lt_iff_rank_lt (a b : Double) (ha : a ≠ Double.nan) (hb : b ≠ Double.nan) :
    Double.lt a b = true ↔ a.rank < b.rank := by
  cases a <;> cases b <;>
    simp_all [Double.lt, Double.view, Double.rank, WithBot.bot_lt_coe, WithTop.coe_lt_top]
  · exact WithBot.bot_lt_coe (0 : WithTop ℚ)
  · exact WithBot.coe_lt_coe.mpr WithTop.top_pos
  · exact WithBot.coe_lt_coe.mpr (WithTop.coe_lt_top _)

theorem Double.le_of_rank_le (a b : Double) (ha : a ≠ Double.nan) (hb : b ≠ Double.nan)
    (h : a.rank ≤ b.rank) : Double.le a b = true := by
  cases a <;> cases b <;>
    simp_all [Double.le, Double.view, Double.rank]
  · have h0 : ((0 : WithTop ℚ) : WithBot (WithTop ℚ)) = ((⊤ : WithTop ℚ) : WithBot (WithTop ℚ)) :=
      h
    exact WithTop.zero_ne_top (WithBot.coe_injective h0)

theorem stdSort_ascending_double (key : α → Double) (v : List α)
    (hv : ∀ a ∈ v, key a ≠ Double.nan) :
    (stdSort (fun a b => Double.lt (key a) (key b)) v).Pairwise
      (fun a b => Double.le (key a) (key b) = true) := by
  have hcongr : stdSort (fun a b => Double.lt (key a) (key b)) v
      = stdSort (fun a b => decide ((key a).rank < (key b).rank)) v := by
    apply stdSort_congr
    intro a ha b hb
    have hiff := Double.lt_iff_rank_lt (key a) (key b) (hv a ha) (hv b hb)
    by_cases hlt : (key a).rank < (key b).rank
    · simp [hlt, hiff.mpr hlt]
    · have hfalse : Double.lt (key a) (key b) = false := by
        cases hval : Double.lt (key a) (key b) with
        | false => rfl
        | true => exact absurd (hiff.mp hval) hlt
      simp [hlt, hfalse]
  have hsorted := stdSort_ascending (fun a => (key a).rank)
    (fun a b => decide ((key a).rank < (key b).rank)) (fun a b => by simp) v
  rw [hcongr]
  have hmem : ∀ a ∈ stdSort (fun a b => decide ((key a).rank < (key b).rank)) v,
      key a ≠ Double.nan :=
    fun a ha => hv a ((stdSort_perm _ v).mem_iff.mp ha)
  exact hsorted.imp_of_mem
    (fun {a b} ha hb hab => Double.le_of_rank_le (key a) (key b) (hmem a ha) (hmem b hb) hab)

end LibraryModels

/-! ## Facts shared by the container theorems -/

namespace MeasurementDeviceContainer

theorem findLoop_eq_append_filter (searchName : String) (devices acc : List Device) :
    devices.foldl
      (fun foundDevices device =>
        if device.getName = searchName then foundDevices ++ [device] else foundDevices)
      acc
    = acc ++ devices.filter (fun device => decide (device.getName = searchName)) := by
  induction devices generalizing acc with
  | nil => simp
  | cons d ds ih =>
    simp only [List.foldl_cons]
    rw [ih]
    by_cases h : d.getName = searchName
    · simp [h, List.filter_cons]
    · simp [h, List.filter_cons]

theorem findDevicesByName_eq_filter (c : MeasurementDeviceContainer) (searchName : String) :
    (c.findDevicesByName searchName).2
      = c.devices.filter (fun device => decide (device.getName = searchName)) := by
  simp [findDevicesByName, findLoop_eq_append_filter]

end MeasurementDeviceContainer

/-- The current index selects a stored device, or the container is empty and the index
is still the constructor's 0. -/
def IndexInBounds (c : MeasurementDeviceContainer) : Prop :=
  c.currentDeviceIndex < c.devices.length
    ∨ (c.devices.length = 0 ∧ c.currentDeviceIndex = 0)

theorem ContainerOp.run_length_ge (c : MeasurementDeviceContainer) (op : ContainerOp) :
    c.devices.length ≤ (op.run c).devices.length := by
  cases op with
  | addDeviceToFront device =>
    simp [ContainerOp.run, MeasurementDeviceContainer.addDeviceToFront, vectorInsert_length]
  | addDeviceToBack device =>
    simp [ContainerOp.run, MeasurementDeviceContainer.addDeviceToBack]
  | addDeviceAt device index =>
    by_cases h : index ≤ c.devices.length <;>
      simp [ContainerOp.run, MeasurementDeviceContainer.addDeviceAt, h, vectorInsert_length]
  | switchDevice index =>
    by_cases h : index < c.devices.length <;>
      simp [ContainerOp.run, MeasurementDeviceContainer.switchDevice, h]
  | sortDevicesByMinValue =>
    simp [ContainerOp.run, MeasurementDeviceContainer.sortDevicesByMinValue, stdSort_length]
  | sortDevicesByMaxValue =>
    simp [ContainerOp.run, MeasurementDeviceContainer.sortDevicesByMaxValue, stdSort_length]
  | sortDevicesByTemperature =>
    simp [ContainerOp.run, MeasurementDeviceContainer.sortDevicesByTemperature,
      stdSort_length]

theorem ContainerOp.run_indexInBounds (c : MeasurementDeviceContainer) (op : ContainerOp)
    (h : IndexInBounds c) : IndexInBounds (op.run c) := by
  unfold IndexInBounds at h ⊢
  cases op with
  | addDeviceToFront device =>
    simp only [ContainerOp.run, MeasurementDeviceContainer.addDeviceToFront,
      vectorInsert_length]
    omega
  | addDeviceToBack device =>
    simp only [ContainerOp.run, MeasurementDeviceContainer.addDeviceToBack,
      List.length_append, List.length_singleton]
    omega
  | addDeviceAt device index =>
    by_cases hi : index ≤ c.devices.length
    · simp only [ContainerOp.run, MeasurementDeviceContainer.addDeviceAt, hi, if_true,
        vectorInsert_length]
      omega
    · simp only [ContainerOp.run, MeasurementDeviceContainer.addDeviceAt, hi, if_false]
      exact h
  | switchDevice index =>
    by_cases hi : index < c.devices.length
    · have hrun : (ContainerOp.switchDevice index).run c
          = { c with currentDeviceIndex := index } := by
        simp [ContainerOp.run, MeasurementDeviceContainer.switchDevice, hi]
      rw [hrun]
      exact Or.inl hi
    · simp only [ContainerOp.run, MeasurementDeviceContainer.switchDevice, hi, if_false]
      exact h
  | sortDevicesByMinValue =>
    simp only [ContainerOp.run, MeasurementDeviceContainer.sortDevicesByMinValue,
      stdSort_length]
    exact h
  | sortDevicesByMaxValue =>
    simp only [ContainerOp.run, MeasurementDeviceContainer.sortDevicesByMaxValue,
      stdSort_length]
    exact h
  | sortDevicesByTemperature =>
    simp only [ContainerOp.run, MeasurementDeviceContainer.sortDevicesByTemperature,
      stdSort_length]
    exact h

theorem runOps_indexInBounds (c : MeasurementDeviceContainer) (ops : List ContainerOp)
    (h : IndexInBounds c) : IndexInBounds (runOps c ops) := by
  induction ops generalizing c with
  | nil => simpa [runOps] using h
  | cons op ops ih =>
    simp only [runOps, List.foldl_cons]
    exact ih _ (ContainerOp.run_indexInBounds c op h)

theorem runOps_length_ge (c : MeasurementDeviceContainer) (ops : List ContainerOp) :
    c.devices.length ≤ (runOps c ops).devices.length := by
  induction ops generalizing c with
  | nil => simp [runOps]
  | cons op ops ih =>
    simp only [runOps, List.foldl_cons]
    exact le_trans (ContainerOp.run_length_ge c op) (ih _)

theorem mainSwitchToNextDevice_eq (c : MeasurementDeviceContainer)
    (hsz : c.devices.length < sizeModulus)
    (hi : c.currentDeviceIndex < c.devices.length) :
    mainSwitchToNextDevice c
      = some (c.switchDevice ((c.currentDeviceIndex + 1) % c.devices.length)) := by
  have hn : c.devices.length ≠ 0 := by omega
  have hwrap : (c.currentDeviceIndex + 1) % sizeModulus = c.currentDeviceIndex + 1 :=
    Nat.mod_eq_of_lt (by omega)
  simp [mainSwitchToNextDevice, MeasurementDeviceContainer.getDeviceCount,
    MeasurementDeviceContainer.getCurrentDeviceIndex, hn, hwrap]

theorem switchDevice_next_accepted (c : MeasurementDeviceContainer)
    (hi : c.currentDeviceIndex < c.devices.length) :
    (c.switchDevice ((c.currentDeviceIndex + 1) % c.devices.length)).1
      = { c with currentDeviceIndex := (c.currentDeviceIndex + 1) % c.devices.length } := by
  have hlt : (c.currentDeviceIndex + 1) % c.devices.length < c.devices.length :=
    Nat.mod_lt _ (by omega)
  simp [MeasurementDeviceContainer.switchDevice, hlt]

theorem mainSwitchToNextDeviceTimes_eq (k : Nat) (c : MeasurementDeviceContainer)
    (hsz : c.devices.length < sizeModulus)
    (hi : c.currentDeviceIndex < c.devices.length) :
    mainSwitchToNextDeviceTimes k c
      = some { c with currentDeviceIndex := (c.currentDeviceIndex + k) % c.devices.length } := by
  induction k generalizing c with
  | zero =>
    have hmod : c.currentDeviceIndex % c.devices.length = c.currentDeviceIndex :=
      Nat.mod_eq_of_lt hi
    simp [mainSwitchToNextDeviceTimes, hmod]
  | succ k ih =>
    have hlt : (c.currentDeviceIndex + 1) % c.devices.length < c.devices.length :=
      Nat.mod_lt _ (by omega)
    simp only [mainSwitchToNextDeviceTimes, mainSwitchToNextDevice_eq c hsz hi,
      switchDevice_next_accepted c hi]
    rw [ih { c with currentDeviceIndex := (c.currentDeviceIndex + 1) % c.devices.length }
      hsz hlt]
    simp only [Nat.mod_add_mod]
    have harith : c.currentDeviceIndex + 1 + k = c.currentDeviceIndex + (k + 1) := by omega
    rw [harith]

theorem new_indexInBounds : IndexInBounds MeasurementDeviceContainer.new :=
  Or.inr ⟨rfl, rfl⟩

theorem getCurrentDevice_ok_of_indexInBounds (c : MeasurementDeviceContainer)
    (h : IndexInBounds c) : ∃ r, c.getCurrentDevice = .ok r := by
  unfold IndexInBounds at h
  rcases h with h | h
  · have hne : c.devices ≠ [] := by
      intro h0
      rw [h0] at h
      simp at h
    have hget : c.devices[c.currentDeviceIndex]? = some (c.devices[c.currentDeviceIndex]) :=
      List.getElem?_eq_getElem h
    exact ⟨_, by simp [MeasurementDeviceContainer.getCurrentDevice, hne, hget]; rfl⟩
  · have h0 : c.devices = [] := List.length_eq_zero.mp h.1
    exact ⟨none, by simp [MeasurementDeviceContainer.getCurrentDevice, h0]⟩

/-! ## The container: insertion, selection, lookup -/

open MeasurementDeviceContainer

/-- C1: for a container with n devices, a device d and an index i with i ≤ n, the call
addDeviceAt(d, i) makes the size n + 1 and puts d at position i, the following
switchDevice(i) is accepted (the current index becomes i), and getCurrentDevice then
returns exactly d. -/
theorem addDeviceAt_then_switchDevice_selects (c : MeasurementDeviceContainer) (d : Device)
    (i : Nat) (h : i ≤ c.devices.length) :
    (c.addDeviceAt d i).1.devices.length = c.devices.length + 1
    ∧ (c.addDeviceAt d i).1.devices[i]? = some d
    ∧ ((c.addDeviceAt d i).1.switchDevice i).1.currentDeviceIndex = i
    ∧ ((c.addDeviceAt d i).1.switchDevice i).1.getCurrentDevice = .ok (some d) := by
  have hadd : (c.addDeviceAt d i).1 = { c with devices := vectorInsert c.devices i d } := by
    simp [addDeviceAt, h]
  have hlen := vectorInsert_length c.devices i d
  have hget := vectorInsert_getElem? c.devices i d h
  have hlt : i < (vectorInsert c.devices i d).length := by omega
  have hne : vectorInsert c.devices i d ≠ [] := by
    intro h0
    rw [h0] at hlen
    simp at hlen
  rw [hadd]
  refine ⟨hlen, hget, ?_, ?_⟩
  · simp [switchDevice, hlt]
  · simp [switchDevice, hlt, getCurrentDevice, hne, hget]

/-- The statement of C1 at a two-device container, inserting in the middle. -/
theorem addDeviceAt_then_switchDevice_selects_witness :
    ((MeasurementDeviceContainer.mk [sampleDevice "a" 0 1, sampleDevice "b" 0 1] 0).addDeviceAt
        (sampleDevice "new" 2 3) 1).1.devices.length = 2 + 1
    ∧ (((MeasurementDeviceContainer.mk [sampleDevice "a" 0 1, sampleDevice "b" 0 1]
        0).addDeviceAt (sampleDevice "new" 2 3) 1).1.switchDevice 1).1.getCurrentDevice
      = .ok (some (sampleDevice "new" 2 3)) :=
  have h := addDeviceAt_then_switchDevice_selects
    (MeasurementDeviceContainer.mk [sampleDevice "a" 0 1, sampleDevice "b" 0 1] 0)
    (sampleDevice "new" 2 3) 1 (by decide)
  ⟨h.1, h.2.2.2⟩

/-- C2: for an index strictly greater than the number of devices, addDeviceAt leaves the
container as it was, device sequence and current index alike; the device is dropped and
the only effect is the diagnostic. -/
theorem addDeviceAt_past_end_unchanged (c : MeasurementDeviceContainer) (d : Device)
    (i : Nat) (h : c.devices.length < i) :
    (c.addDeviceAt d i).1 = c
    ∧ (c.addDeviceAt d i).1.devices = c.devices
    ∧ (c.addDeviceAt d i).1.currentDeviceIndex = c.currentDeviceIndex
    ∧ (c.addDeviceAt d i).2 = ["Invalid index. Device not added.\n"] := by
  have hn : ¬ i ≤ c.devices.length := by omega
  simp [addDeviceAt, hn]

/-- The statement of C2 at a one-device container and index 2. -/
theorem addDeviceAt_past_end_unchanged_witness :
    ((MeasurementDeviceContainer.mk [sampleDevice "a" 0 1] 0).addDeviceAt
        (sampleDevice "new" 2 3) 2).1
      = MeasurementDeviceContainer.mk [sampleDevice "a" 0 1] 0 :=
  (addDeviceAt_past_end_unchanged (MeasurementDeviceContainer.mk [sampleDevice "a" 0 1] 0)
    (sampleDevice "new" 2 3) 2 (by decide)).1

/-- C5: switchDevice(i) sets the current index to i when i is below the size and keeps
the current index otherwise; the device sequence is the same in both cases. On the empty
container switchDevice(0) is rejected: the container, its index included, stays as it
was and the invalid-index diagnostic is written. -/
theorem switchDevice_index_and_frame (c : MeasurementDeviceContainer) (i : Nat) :
    (c.switchDevice i).1.currentDeviceIndex
      = (if i < c.devices.length then i else c.currentDeviceIndex)
    ∧ (c.switchDevice i).1.devices = c.devices
    ∧ (∀ k : Nat, (MeasurementDeviceContainer.mk [] k).switchDevice 0
        = (MeasurementDeviceContainer.mk [] k, ["Invalid device index.\n"])) := by
  refine ⟨?_, ?_, ?_⟩
  · by_cases h : i < c.devices.length <;> simp [switchDevice, h]
  · by_cases h : i < c.devices.length <;> simp [switchDevice, h]
  · intro k
    simp [switchDevice]

/-- C6: getCurrentDevice returns the null pointer on the empty container, and on a
container whose current index is below its size (which is then non-empty) it returns the
device stored at the current index. -/
theorem getCurrentDevice_spec (c : MeasurementDeviceContainer) :
    (c.devices = [] → c.getCurrentDevice = .ok none)
    ∧ (∀ h : c.currentDeviceIndex < c.devices.length,
        c.devices ≠ []
        ∧ c.getCurrentDevice = .ok (some (c.devices.get ⟨c.currentDeviceIndex, h⟩))) := by
  refine ⟨?_, ?_⟩
  · intro h
    simp [getCurrentDevice, h]
  · intro h
    have hne : c.devices ≠ [] := by
      intro h0
      rw [h0] at h
      simp at h
    refine ⟨hne, ?_⟩
    have hget : c.devices[c.currentDeviceIndex]? = some (c.devices[c.currentDeviceIndex]) :=
      List.getElem?_eq_getElem h
    simp [getCurrentDevice, hne, hget]

/-- The statement of C6 at the empty container and at a two-device container whose
current index is 1. -/
theorem getCurrentDevice_spec_witness :
    (MeasurementDeviceContainer.mk [] 0).getCurrentDevice = .ok none
    ∧ (MeasurementDeviceContainer.mk [sampleDevice "a" 0 1, sampleDevice "b" 0 1]
        1).getCurrentDevice = .ok (some (sampleDevice "b" 0 1)) :=
  ⟨(getCurrentDevice_spec (MeasurementDeviceContainer.mk [] 0)).1 rfl,
   ((getCurrentDevice_spec
      (MeasurementDeviceContainer.mk [sampleDevice "a" 0 1, sampleDevice "b" 0 1] 1)).2
      (by decide)).2⟩

/-! ## The container: search and sort -/

/-- C3: findDevicesByName(s) returns exactly the devices of the container whose name is
equal to s (string equality, so case matters), in container order and with multiplicity:
the result is the container's sequence filtered by the name test, hence a subsequence of
it, holding each device as often as the container does when its name is s and never
otherwise; it is empty exactly when no device has that name; the container is returned
unchanged. On names X, Y, X the search for X yields the first and the third device, in
that order, and the search for lower-case x yields nothing. -/
theorem findDevicesByName_spec (c : MeasurementDeviceContainer) (s : String) :
    (c.findDevicesByName s).2 = c.devices.filter (fun d => decide (d.getName = s))
    ∧ (c.findDevicesByName s).2.Sublist c.devices
    ∧ (∀ d, d ∈ (c.findDevicesByName s).2 ↔ d ∈ c.devices ∧ d.getName = s)
    ∧ (∀ d, (c.findDevicesByName s).2.count d
        = if d.getName = s then c.devices.count d else 0)
    ∧ ((c.findDevicesByName s).2 = [] ↔ ∀ d ∈ c.devices, d.getName ≠ s)
    ∧ (c.findDevicesByName s).1 = c
    ∧ ((MeasurementDeviceContainer.mk
          [sampleDevice "X" 1 2, sampleDevice "Y" 3 4, sampleDevice "X" 5 6]
          0).findDevicesByName "X").2 = [sampleDevice "X" 1 2, sampleDevice "X" 5 6]
    ∧ ((MeasurementDeviceContainer.mk
          [sampleDevice "X" 1 2, sampleDevice "Y" 3 4, sampleDevice "X" 5 6]
          0).findDevicesByName "x").2 = [] := by
  have hf := findDevicesByName_eq_filter c s
  refine ⟨hf, ?_, ?_, ?_, ?_, rfl, by decide, by decide⟩
  · rw [hf]
    exact List.filter_sublist _
  · intro d
    rw [hf]
    simp [List.mem_filter]
  · intro d
    rw [hf]
    by_cases h : d.getName = s
    · rw [if_pos h]
      exact List.count_filter (by simpa using h)
    · rw [if_neg h]
      apply List.count_eq_zero_of_not_mem
      simp [List.mem_filter, h]
  · rw [hf, List.filter_eq_nil_iff]
    simp

/-- C4 as amended: after sortDevicesByMinValue the device sequence is a permutation of
the sequence before the call, and when no device has NaN as its minValue it is in
non-decreasing order of minValue (every device has a minValue less than or equal to
that of every device after it, in the comparison of doubles); the current index is not
touched. Devices with minValues 5, 1, 3 come out with minValues 1, 3, 5. -/
theorem sortDevicesByMinValue_spec (c : MeasurementDeviceContainer) :
    c.sortDevicesByMinValue.devices.Perm c.devices
    ∧ ((∀ d ∈ c.devices, d.getMinValue ≠ Double.nan) →
        c.sortDevicesByMinValue.devices.Pairwise
          (fun a b => Double.le a.getMinValue b.getMinValue = true))
    ∧ c.sortDevicesByMinValue.currentDeviceIndex = c.currentDeviceIndex
    ∧ (MeasurementDeviceContainer.mk
          [sampleDevice "a" 5 9, sampleDevice "b" 1 9, sampleDevice "c" 3 9]
          0).sortDevicesByMinValue.devices
        = [sampleDevice "b" 1 9, sampleDevice "c" 3 9, sampleDevice "a" 5 9]
    ∧ (MeasurementDeviceContainer.mk
          [sampleDevice "a" 5 9, sampleDevice "b" 1 9, sampleDevice "c" 3 9]
          0).sortDevicesByMinValue.devices.map Device.getMinValue
        = [Double.finite 1, Double.finite 3, Double.finite 5] := by
  refine ⟨stdSort_perm _ _, ?_, rfl, by decide, by decide⟩
  intro hnan
  exact stdSort_ascending_double Device.getMinValue c.devices hnan

/-- The statement of C4 at three devices with minValues 5, 1, 3, none of them NaN. -/
theorem sortDevicesByMinValue_spec_witness :
    (MeasurementDeviceContainer.mk
        [sampleDevice "a" 5 9, sampleDevice "b" 1 9, sampleDevice "c" 3 9]
        0).sortDevicesByMinValue.devices.Pairwise
      (fun a b => Double.le a.getMinValue b.getMinValue = true) :=
  (sortDevicesByMinValue_spec
    (MeasurementDeviceContainer.mk
      [sampleDevice "a" 5 9, sampleDevice "b" 1 9, sampleDevice "c" 3 9] 0)).2.1
    (by decide)

/-- C4 as stated fails: the constructor takes any double as minValue, and with minValues
3, NaN, 1, 2 the devices come out with minValues 1, 3, NaN, 2, where 3 stands before 2:
the sequence after the call is not in non-decreasing order of minValue, in neither
reading (an earlier value less than or equal to every later one; no later value less
than an earlier one). -/
theorem sortDevicesByMinValue_nan_unsorted :
    (MeasurementDeviceContainer.mk
        [sampleDevice "a" 3 9, sampleDeviceOfDoubles "n" Double.nan (Double.finite 9),
          sampleDevice "b" 1 9, sampleDevice "c" 2 9]
        0).sortDevicesByMinValue.devices.map Device.getMinValue
      = [Double.finite 1, Double.finite 3, Double.nan, Double.finite 2]
    ∧ ¬ (MeasurementDeviceContainer.mk
        [sampleDevice "a" 3 9, sampleDeviceOfDoubles "n" Double.nan (Double.finite 9),
          sampleDevice "b" 1 9, sampleDevice "c" 2 9]
        0).sortDevicesByMinValue.devices.Pairwise
      (fun a b => Double.le a.getMinValue b.getMinValue = true)
    ∧ ¬ (MeasurementDeviceContainer.mk
        [sampleDevice "a" 3 9, sampleDeviceOfDoubles "n" Double.nan (Double.finite 9),
          sampleDevice "b" 1 9, sampleDevice "c" 2 9]
        0).sortDevicesByMinValue.devices.Pairwise
      (fun a b => Double.lt b.getMinValue a.getMinValue = false) := by
  refine ⟨by decide, by decide, by decide⟩

/-! ## The devices -/

/-- C7: setCurrentTemperature(v) leaves an inactive temperature device exactly as it
was (currentTemperature and every other field) and writes the rejection notice; on an
active device it sets currentTemperature to v and changes nothing else. A freshly
constructed temperature device is inactive with currentTemperature 0, so a write before
startMeasuring is rejected and the device stays as constructed. -/
theorem setCurrentTemperature_gated (d : TemperatureMeasurementDevice) (v : Double) :
    (d.isDeviceActiveForMeasurement = false →
        (d.setCurrentTemperature v).1 = d
        ∧ (d.setCurrentTemperature v).2 = ["Device is not ACTIVE!!!\n"])
    ∧ (d.isDeviceActiveForMeasurement = true →
        (d.setCurrentTemperature v).1 = { d with currentTemperature := v }
        ∧ (d.setCurrentTemperature v).1.currentTemperature = v)
    ∧ (∀ (name unit : String) (lo hi : Double) (m : Material) (sc : TemperatureScale),
        (TemperatureMeasurementDevice.new name unit lo hi m sc).isDeviceActiveForMeasurement
          = false
        ∧ (TemperatureMeasurementDevice.new name unit lo hi m sc).currentTemperature
          = Double.finite 0
        ∧ ((TemperatureMeasurementDevice.new name unit lo hi m sc).setCurrentTemperature v).1
          = TemperatureMeasurementDevice.new name unit lo hi m sc) := by
  refine ⟨?_, ?_, ?_⟩
  · intro h
    simp [TemperatureMeasurementDevice.setCurrentTemperature, h]
  · intro h
    simp [TemperatureMeasurementDevice.setCurrentTemperature, h]
  · intro name unit lo hi m sc
    have hzero : Double.ofDecimal 0 1 = Double.finite 0 := by decide
    simp [TemperatureMeasurementDevice.setCurrentTemperature,
      TemperatureMeasurementDevice.new, MeasurementDevice.new, hzero]

/-- The statement of C7 at a thermometer as constructed (write rejected) and at the same
thermometer after startMeasuring (write accepted). -/
theorem setCurrentTemperature_gated_witness :
    ((sampleThermometer "t").setCurrentTemperature (Double.finite 25)).1
      = sampleThermometer "t"
    ∧ ((sampleThermometer "t").startMeasuring.1.setCurrentTemperature
        (Double.finite 25)).1.currentTemperature = Double.finite 25 :=
  ⟨((setCurrentTemperature_gated (sampleThermometer "t") (Double.finite 25)).1 rfl).1,
   ((setCurrentTemperature_gated (sampleThermometer "t").startMeasuring.1
      (Double.finite 25)).2.1 rfl).2⟩

/-- C8: for a device of either variant, in either state: after startMeasuring the active
flag is true and a second startMeasuring leaves the same device state as the first;
after stopMeasuring the flag is false and a second stopMeasuring leaves the same state
as the first. Neither operation changes the variant or any other field: the resulting
device is the original one with only the active flag set to the target value. -/
theorem start_stop_idempotent (d : Device) :
    d.startMeasuring.1.isActive = true
    ∧ d.startMeasuring.1.startMeasuring.1 = d.startMeasuring.1
    ∧ d.stopMeasuring.1.isActive = false
    ∧ d.stopMeasuring.1.stopMeasuring.1 = d.stopMeasuring.1
    ∧ (∀ b : MeasurementDevice,
        (Device.plain b).startMeasuring.1
          = Device.plain { b with isDeviceActiveForMeasurement := true }
        ∧ (Device.plain b).stopMeasuring.1
          = Device.plain { b with isDeviceActiveForMeasurement := false })
    ∧ (∀ t : TemperatureMeasurementDevice,
        (Device.temperature t).startMeasuring.1
          = Device.temperature { t with isDeviceActiveForMeasurement := true }
        ∧ (Device.temperature t).stopMeasuring.1
          = Device.temperature { t with isDeviceActiveForMeasurement := false }) := by
  have hb : ∀ b : MeasurementDevice,
      b.startMeasuring.1 = { b with isDeviceActiveForMeasurement := true }
      ∧ b.stopMeasuring.1 = { b with isDeviceActiveForMeasurement := false } := by
    intro b
    cases hact : b.isDeviceActiveForMeasurement with
    | false =>
      refine ⟨by simp [MeasurementDevice.startMeasuring, hact], ?_⟩
      simp only [MeasurementDevice.stopMeasuring, hact]
      cases b
      simp_all
    | true =>
      refine ⟨?_, by simp [MeasurementDevice.stopMeasuring, hact]⟩
      simp only [MeasurementDevice.startMeasuring, hact]
      cases b
      simp_all
  have hplain : ∀ b : MeasurementDevice,
      (Device.plain b).startMeasuring.1
        = Device.plain { b with isDeviceActiveForMeasurement := true }
      ∧ (Device.plain b).stopMeasuring.1
        = Device.plain { b with isDeviceActiveForMeasurement := false } := by
    intro b
    simp [Device.startMeasuring, Device.stopMeasuring, hb b]
  have htemp : ∀ t : TemperatureMeasurementDevice,
      (Device.temperature t).startMeasuring.1
        = Device.temperature { t with isDeviceActiveForMeasurement := true }
      ∧ (Device.temperature t).stopMeasuring.1
        = Device.temperature { t with isDeviceActiveForMeasurement := false } := by
    intro t
    simp [Device.startMeasuring, Device.stopMeasuring,
      TemperatureMeasurementDevice.startMeasuring, TemperatureMeasurementDevice.stopMeasuring,
      hb t.toMeasurementDevice]
  refine ⟨?_, ?_, ?_, ?_, hplain, htemp⟩
  · cases d with
    | plain b => rw [(hplain b).1]; rfl
    | temperature t => rw [(htemp t).1]; rfl
  · cases d with
    | plain b => rw [(hplain b).1, (hplain _).1]
    | temperature t => rw [(htemp t).1, (htemp _).1]
  · cases d with
    | plain b => rw [(hplain b).2]; rfl
    | temperature t => rw [(htemp t).2]; rfl
  · cases d with
    | plain b => rw [(hplain b).2, (hplain _).2]
    | temperature t => rw [(htemp t).2, (htemp _).2]

/-- C10 as amended: after any sequence of container operations (the three insertions,
switchDevice, the three sorts) starting from the freshly constructed container, the
current index is below the size, or the container is still empty with index 0; in both
cases getCurrentDevice returns without an access outside the vector. -/
theorem current_index_stays_in_bounds (ops : List ContainerOp) :
    ((runOps MeasurementDeviceContainer.new ops).currentDeviceIndex
        < (runOps MeasurementDeviceContainer.new ops).devices.length
      ∨ ((runOps MeasurementDeviceContainer.new ops).devices = []
        ∧ (runOps MeasurementDeviceContainer.new ops).currentDeviceIndex = 0))
    ∧ ∃ r, (runOps MeasurementDeviceContainer.new ops).getCurrentDevice = .ok r := by
  have h := runOps_indexInBounds MeasurementDeviceContainer.new ops new_indexInBounds
  refine ⟨?_, getCurrentDevice_ok_of_indexInBounds _ h⟩
  unfold IndexInBounds at h
  rcases h with h | h
  · exact Or.inl h
  · exact Or.inr ⟨List.length_eq_zero.mp h.1, h.2⟩

/-- C10 as stated fails: no sequence of container operations starting from the freshly
constructed container ends in a non-empty container whose current index is greater than
or equal to its size. -/
theorem no_reachable_index_past_end :
    ¬ ∃ ops : List ContainerOp,
        (runOps MeasurementDeviceContainer.new ops).devices ≠ []
        ∧ (runOps MeasurementDeviceContainer.new ops).devices.length
            ≤ (runOps MeasurementDeviceContainer.new ops).currentDeviceIndex := by
  rintro ⟨ops, hne, hge⟩
  have h := runOps_indexInBounds MeasurementDeviceContainer.new ops new_indexInBounds
  unfold IndexInBounds at h
  rcases h with h | h
  · omega
  · exact hne (List.length_eq_zero.mp h.1)

/-! ## Growth of the container -/

/-- C11: the container grows by insertion and never shrinks. addDeviceToFront,
addDeviceToBack and addDeviceAt with an index of at most the size each raise the number
of devices by exactly one, and the devices stored before are still there in their
previous relative order (the old sequence is a subsequence of the new one, which is the
old one with the new device put at the front, at the back, or at the given position).
A rejected addDeviceAt, switchDevice, findDevicesByName and the three sorts leave the
number of devices as it was, so no single operation and no sequence of operations
ever lowers it. -/
theorem container_grows_never_shrinks (c : MeasurementDeviceContainer) (d : Device)
    (i : Nat) (s : String) (op : ContainerOp) (ops : List ContainerOp) :
    ((c.addDeviceToFront d).devices = d :: c.devices
      ∧ (c.addDeviceToFront d).devices.length = c.devices.length + 1
      ∧ c.devices.Sublist (c.addDeviceToFront d).devices)
    ∧ ((c.addDeviceToBack d).devices = c.devices ++ [d]
      ∧ (c.addDeviceToBack d).devices.length = c.devices.length + 1
      ∧ c.devices.Sublist (c.addDeviceToBack d).devices)
    ∧ (i ≤ c.devices.length →
        (c.addDeviceAt d i).1.devices = c.devices.take i ++ d :: c.devices.drop i
        ∧ (c.addDeviceAt d i).1.devices.length = c.devices.length + 1
        ∧ c.devices.Sublist (c.addDeviceAt d i).1.devices)
    ∧ (c.devices.length < i →
        (c.addDeviceAt d i).1.devices.length = c.devices.length)
    ∧ (c.switchDevice i).1.devices.length = c.devices.length
    ∧ (c.findDevicesByName s).1.devices.length = c.devices.length
    ∧ c.sortDevicesByMinValue.devices.length = c.devices.length
    ∧ c.sortDevicesByMaxValue.devices.length = c.devices.length
    ∧ c.sortDevicesByTemperature.devices.length = c.devices.length
    ∧ c.devices.length ≤ (op.run c).devices.length
    ∧ c.devices.length ≤ (runOps c ops).devices.length := by
  refine ⟨⟨?_, ?_, ?_⟩, ⟨rfl, ?_, ?_⟩, ?_, ?_, ?_, rfl, ?_, ?_, ?_,
    ContainerOp.run_length_ge c op, runOps_length_ge c ops⟩
  · simp [addDeviceToFront, vectorInsert_zero]
  · simp [addDeviceToFront, vectorInsert_length]
  · exact vectorInsert_sublist c.devices 0 d
  · simp [addDeviceToBack]
  · simp [addDeviceToBack]
  · intro h
    have hadd : (c.addDeviceAt d i).1.devices = vectorInsert c.devices i d := by
      simp [addDeviceAt, h]
    rw [hadd]
    exact ⟨rfl, vectorInsert_length c.devices i d, vectorInsert_sublist c.devices i d⟩
  · intro h
    have hn : ¬ i ≤ c.devices.length := by omega
    simp [addDeviceAt, hn]
  · by_cases h : i < c.devices.length <;> simp [switchDevice, h]
  · exact stdSort_length _ _
  · exact stdSort_length _ _
  · exact stdSort_length _ _

/-- The statement of C11 at a two-device container: an insertion at position 1 gives
three devices with the old two in order around the new one, an insertion at position 5
is rejected and leaves two. -/
theorem container_grows_never_shrinks_witness :
    ((MeasurementDeviceContainer.mk [sampleDevice "a" 0 1, sampleDevice "b" 0 1] 0).addDeviceAt
        (sampleDevice "new" 2 3) 1).1.devices
      = [sampleDevice "a" 0 1, sampleDevice "new" 2 3, sampleDevice "b" 0 1]
    ∧ ((MeasurementDeviceContainer.mk [sampleDevice "a" 0 1, sampleDevice "b" 0 1]
        0).addDeviceAt (sampleDevice "new" 2 3) 5).1.devices.length = 2 :=
  ⟨((container_grows_never_shrinks
      (MeasurementDeviceContainer.mk [sampleDevice "a" 0 1, sampleDevice "b" 0 1] 0)
      (sampleDevice "new" 2 3) 1 "a" ContainerOp.sortDevicesByMinValue []).2.2.1
      (by decide)).1,
   (container_grows_never_shrinks
      (MeasurementDeviceContainer.mk [sampleDevice "a" 0 1, sampleDevice "b" 0 1] 0)
      (sampleDevice "new" 2 3) 5 "a" ContainerOp.sortDevicesByMinValue []).2.2.2.1
      (by decide)⟩

/-- C17: addDeviceToFront(d) leaves the same container state as addDeviceAt(d, 0), and
addDeviceToBack(d) the same state as addDeviceAt(d, size); both addDeviceAt calls are
accepted and write nothing, as the two special-purpose members do. -/
theorem addDeviceToFront_back_eq_addDeviceAt (c : MeasurementDeviceContainer) (d : Device) :
    c.addDeviceToFront d = (c.addDeviceAt d 0).1
    ∧ c.addDeviceToBack d = (c.addDeviceAt d c.getDeviceCount).1
    ∧ (c.addDeviceAt d 0).2 = []
    ∧ (c.addDeviceAt d c.getDeviceCount).2 = [] := by
  refine ⟨?_, ?_, ?_, ?_⟩
  · simp [addDeviceToFront, addDeviceAt]
  · simp [addDeviceToBack, addDeviceAt, getDeviceCount, vectorInsert_size]
  · simp [addDeviceAt]
  · simp [addDeviceAt, getDeviceCount]

/-! ## The remaining sorts -/

/-- C12: the comparator of sortDevicesByTemperature says less exactly when both devices
are temperature devices and the first has the strictly smaller currentTemperature (in
the comparison of doubles), and says not less for every pair with a plain device on
either side. On mixed collections
it is not a strict weak ordering: a thermometer reading 10 and a plain device are
incomparable, the plain device and a thermometer reading 20 are incomparable, yet the
first thermometer compares less than the second, so incomparability is not transitive. -/
theorem temperatureLess_not_strict_weak :
    (∀ a b : Device, temperatureLess a b = true ↔
        ∃ ta tb : TemperatureMeasurementDevice,
          a = Device.temperature ta ∧ b = Device.temperature tb
          ∧ Double.lt ta.currentTemperature tb.currentTemperature = true)
    ∧ (∀ (p : MeasurementDevice) (x : Device),
        temperatureLess (Device.plain p) x = false
        ∧ temperatureLess x (Device.plain p) = false)
    ∧ ((sampleReadingThermometer "a" 10).currentTemperature = Double.finite 10
      ∧ (sampleReadingThermometer "b" 20).currentTemperature = Double.finite 20
      ∧ Double.lt (sampleReadingThermometer "a" 10).currentTemperature
          (sampleReadingThermometer "b" 20).currentTemperature = true
      ∧ temperatureLess (Device.temperature (sampleReadingThermometer "a" 10))
          (sampleDevice "p" 0 1) = false
      ∧ temperatureLess (sampleDevice "p" 0 1)
          (Device.temperature (sampleReadingThermometer "a" 10)) = false
      ∧ temperatureLess (sampleDevice "p" 0 1)
          (Device.temperature (sampleReadingThermometer "b" 20)) = false
      ∧ temperatureLess (Device.temperature (sampleReadingThermometer "b" 20))
          (sampleDevice "p" 0 1) = false
      ∧ temperatureLess (Device.temperature (sampleReadingThermometer "a" 10))
          (Device.temperature (sampleReadingThermometer "b" 20)) = true)
    ∧ (∃ (a b : TemperatureMeasurementDevice) (p : MeasurementDevice),
        Double.lt a.currentTemperature b.currentTemperature = true
        ∧ (temperatureLess (Device.temperature a) (Device.plain p) = false
          ∧ temperatureLess (Device.plain p) (Device.temperature a) = false)
        ∧ (temperatureLess (Device.plain p) (Device.temperature b) = false
          ∧ temperatureLess (Device.temperature b) (Device.plain p) = false)
        ∧ temperatureLess (Device.temperature a) (Device.temperature b) = true)
    ∧ ¬ (∀ x y z : Device,
          (temperatureLess x y = false ∧ temperatureLess y x = false) →
          (temperatureLess y z = false ∧ temperatureLess z y = false) →
          (temperatureLess x z = false ∧ temperatureLess z x = false)) := by
  have hplain : ∀ (p : MeasurementDevice) (x : Device),
      temperatureLess (Device.plain p) x = false
      ∧ temperatureLess x (Device.plain p) = false := by
    intro p x
    cases x <;> simp [temperatureLess, Device.asTemperature]
  have hlt : temperatureLess (Device.temperature (sampleReadingThermometer "a" 10))
      (Device.temperature (sampleReadingThermometer "b" 20)) = true := by decide
  have hread : Double.lt (sampleReadingThermometer "a" 10).currentTemperature
      (sampleReadingThermometer "b" 20).currentTemperature = true := by decide
  refine ⟨?_, hplain, ?_, ?_, ?_⟩
  · intro a b
    cases a with
    | plain pa => simp [temperatureLess, Device.asTemperature]
    | temperature ta =>
      cases b with
      | plain pb => simp [temperatureLess, Device.asTemperature]
      | temperature tb =>
        simp [temperatureLess, Device.asTemperature,
          TemperatureMeasurementDevice.getCurrentTemperature]
  · exact ⟨by decide, by decide, hread, (hplain _ _).2, (hplain _ _).1, (hplain _ _).1,
      (hplain _ _).2, hlt⟩
  · exact ⟨sampleReadingThermometer "a" 10, sampleReadingThermometer "b" 20,
      MeasurementDevice.new "p" "V" (Double.ofRat 0) (Double.ofRat 1) Material.Metal, hread,
      ⟨(hplain _ _).2, (hplain _ _).1⟩, ⟨(hplain _ _).1, (hplain _ _).2⟩, hlt⟩
  · intro htrans
    have h := htrans (Device.temperature (sampleReadingThermometer "a" 10))
      (sampleDevice "p" 0 1) (Device.temperature (sampleReadingThermometer "b" 20))
      ⟨(hplain _ _).2, (hplain _ _).1⟩ ⟨(hplain _ _).1, (hplain _ _).2⟩
    rw [hlt] at h
    exact Bool.noConfusion h.1

/-- C14 as amended: after sortDevicesByMaxValue the device sequence is a permutation of
the sequence before the call, and when no device has NaN as its maxValue it is in
non-decreasing order of maxValue; the current index is not touched. The order depends
on maxValue only: replacing every device by another device with the same maxValue
(another name, unit, minValue, material, state or variant) and sorting gives the
replacements in the very arrangement the original devices get; and the maxValues after
the call are the sorted maxValues from before. A thermometer with maxValue 100 between
plain devices with maxValues 200 and 50 comes out in the middle. -/
theorem sortDevicesByMaxValue_spec (c : MeasurementDeviceContainer) :
    c.sortDevicesByMaxValue.devices.Perm c.devices
    ∧ ((∀ d ∈ c.devices, d.getMaxValue ≠ Double.nan) →
        c.sortDevicesByMaxValue.devices.Pairwise
          (fun a b => Double.le a.getMaxValue b.getMaxValue = true))
    ∧ c.sortDevicesByMaxValue.currentDeviceIndex = c.currentDeviceIndex
    ∧ (∀ g : Device → Device, (∀ d, (g d).getMaxValue = d.getMaxValue) →
        (MeasurementDeviceContainer.mk (c.devices.map g)
            c.currentDeviceIndex).sortDevicesByMaxValue.devices
          = c.sortDevicesByMaxValue.devices.map g)
    ∧ c.sortDevicesByMaxValue.devices.map Device.getMaxValue
        = stdSort Double.lt (c.devices.map Device.getMaxValue)
    ∧ (MeasurementDeviceContainer.mk
          [sampleDevice "a" 1 200, Device.temperature (sampleThermometer "t"),
            sampleDevice "c" 3 50]
          0).sortDevicesByMaxValue.devices
        = [sampleDevice "c" 3 50, Device.temperature (sampleThermometer "t"),
            sampleDevice "a" 1 200] := by
  refine ⟨stdSort_perm _ _, ?_, rfl, ?_, ?_, by decide⟩
  · intro hnan
    exact stdSort_ascending_double Device.getMaxValue c.devices hnan
  · intro g hg
    exact stdSort_map_of_respects (fun a b => Double.lt a.getMaxValue b.getMaxValue) g
      (fun a b => by simp only [hg]) c.devices
  · exact stdSort_map Device.getMaxValue Double.lt c.devices

/-- The statement of C14 at two plain devices with equal maxValue 7 and minValues 2 and
1 around a thermometer: none of the maxValues is NaN, so the result is in order; and
turning every device into a plain device with minValue 0, which keeps the maxValues,
gives the same arrangement. -/
theorem sortDevicesByMaxValue_spec_witness :
    (MeasurementDeviceContainer.mk
        [sampleDevice "a" 2 7, Device.temperature (sampleThermometer "t"),
          sampleDevice "b" 1 7]
        0).sortDevicesByMaxValue.devices.Pairwise
      (fun a b => Double.le a.getMaxValue b.getMaxValue = true)
    ∧ (MeasurementDeviceContainer.mk
        ([sampleDevice "a" 2 7, Device.temperature (sampleThermometer "t"),
          sampleDevice "b" 1 7].map
          (fun d => Device.plain { d.base with minValue := Double.finite 0 }))
        0).sortDevicesByMaxValue.devices
      = (MeasurementDeviceContainer.mk
        [sampleDevice "a" 2 7, Device.temperature (sampleThermometer "t"),
          sampleDevice "b" 1 7]
        0).sortDevicesByMaxValue.devices.map
          (fun d => Device.plain { d.base with minValue := Double.finite 0 }) :=
  ⟨(sortDevicesByMaxValue_spec
      (MeasurementDeviceContainer.mk
        [sampleDevice "a" 2 7, Device.temperature (sampleThermometer "t"),
          sampleDevice "b" 1 7] 0)).2.1 (by decide),
   (sortDevicesByMaxValue_spec
      (MeasurementDeviceContainer.mk
        [sampleDevice "a" 2 7, Device.temperature (sampleThermometer "t"),
          sampleDevice "b" 1 7] 0)).2.2.2.1
      (fun d => Device.plain { d.base with minValue := Double.finite 0 })
      (fun _ => rfl)⟩

/-- C14 as stated fails: the constructor takes any double as maxValue, and with
maxValues 3, NaN, 1, 2 the devices come out with maxValues 1, 3, NaN, 2, where 3 stands
before 2: the sequence after the call is not in non-decreasing order of maxValue, in
neither reading (an earlier value less than or equal to every later one; no later value
less than an earlier one). -/
theorem sortDevicesByMaxValue_nan_unsorted :
    (MeasurementDeviceContainer.mk
        [sampleDevice "a" 0 3, sampleDeviceOfDoubles "n" (Double.finite 0) Double.nan,
          sampleDevice "b" 0 1, sampleDevice "c" 0 2]
        0).sortDevicesByMaxValue.devices.map Device.getMaxValue
      = [Double.finite 1, Double.finite 3, Double.nan, Double.finite 2]
    ∧ ¬ (MeasurementDeviceContainer.mk
        [sampleDevice "a" 0 3, sampleDeviceOfDoubles "n" (Double.finite 0) Double.nan,
          sampleDevice "b" 0 1, sampleDevice "c" 0 2]
        0).sortDevicesByMaxValue.devices.Pairwise
      (fun a b => Double.le a.getMaxValue b.getMaxValue = true)
    ∧ ¬ (MeasurementDeviceContainer.mk
        [sampleDevice "a" 0 3, sampleDeviceOfDoubles "n" (Double.finite 0) Double.nan,
          sampleDevice "b" 0 1, sampleDevice "c" 0 2]
        0).sortDevicesByMaxValue.devices.Pairwise
      (fun a b => Double.lt b.getMaxValue a.getMaxValue = false) := by
  refine ⟨by decide, by decide, by decide⟩

/-! ## Notices of the temperature overrides -/

/-- C13, the code at the failing input: on a temperature device that is already active
startMeasuring leaves the device as it is but still writes its notice, and on one that
is already inactive stopMeasuring likewise still writes its notice. A plain device in
the target state is left as it is and nothing is written. -/
theorem temperature_override_notice_in_target_state :
    (∀ t : TemperatureMeasurementDevice,
        (Device.temperature { t with isDeviceActiveForMeasurement := true }).startMeasuring
          = (Device.temperature { t with isDeviceActiveForMeasurement := true },
              ["Temperature measurement started\n"])
        ∧ (Device.temperature { t with isDeviceActiveForMeasurement := false }).stopMeasuring
          = (Device.temperature { t with isDeviceActiveForMeasurement := false },
              ["Temperature measurement stopped\n"]))
    ∧ (∀ b : MeasurementDevice,
        (Device.plain { b with isDeviceActiveForMeasurement := true }).startMeasuring
          = (Device.plain { b with isDeviceActiveForMeasurement := true }, [])
        ∧ (Device.plain { b with isDeviceActiveForMeasurement := false }).stopMeasuring
          = (Device.plain { b with isDeviceActiveForMeasurement := false }, []))
    ∧ (Device.temperature (sampleReadingThermometer "t" 25)).isActive = true
    ∧ (Device.temperature (sampleReadingThermometer "t" 25)).startMeasuring
        = (Device.temperature (sampleReadingThermometer "t" 25),
            ["Temperature measurement started\n"])
    ∧ (Device.temperature (sampleThermometer "t")).isActive = false
    ∧ (Device.temperature (sampleThermometer "t")).stopMeasuring
        = (Device.temperature (sampleThermometer "t"),
            ["Temperature measurement stopped\n"]) := by
  refine ⟨?_, ?_, by decide, by decide, by decide, by decide⟩
  · intro t
    simp [Device.startMeasuring, Device.stopMeasuring,
      TemperatureMeasurementDevice.startMeasuring, TemperatureMeasurementDevice.stopMeasuring,
      MeasurementDevice.startMeasuring, MeasurementDevice.stopMeasuring]
  · intro b
    simp [Device.startMeasuring, Device.stopMeasuring,
      MeasurementDevice.startMeasuring, MeasurementDevice.stopMeasuring]

/-! ## The menu step -/

/-- C15: the menu step switch-to-next-device is cyclic. On a container with n ≥ 1
devices (n a size_t value) and current index i < n it calls switchDevice((i+1) mod n),
the call is accepted because (i+1) mod n < n, the devices stay as they are, and the new
current index is i+1 when i+1 < n and 0 when i = n-1; the step taken n times brings the
container back with current index i. With no devices the remainder is taken by zero and
the step has no defined result. -/
theorem mainSwitchToNextDevice_cyclic (c : MeasurementDeviceContainer)
    (hn : 1 ≤ c.devices.length) (hsz : c.devices.length < sizeModulus)
    (hi : c.currentDeviceIndex < c.devices.length) :
    mainSwitchToNextDevice c
        = some (c.switchDevice ((c.currentDeviceIndex + 1) % c.devices.length))
    ∧ (c.currentDeviceIndex + 1) % c.devices.length < c.devices.length
    ∧ (∃ r, mainSwitchToNextDevice c = some r
        ∧ r.1.devices = c.devices
        ∧ r.1.currentDeviceIndex
            = (if c.currentDeviceIndex + 1 < c.devices.length then c.currentDeviceIndex + 1
               else 0)
        ∧ r.2 = ["Switched to device "
                  ++ toString ((c.currentDeviceIndex + 1) % c.devices.length + 1) ++ "\n"])
    ∧ mainSwitchToNextDeviceTimes c.devices.length c = some c
    ∧ (∀ k : Nat, mainSwitchToNextDevice (MeasurementDeviceContainer.mk [] k) = none) := by
  have hlt : (c.currentDeviceIndex + 1) % c.devices.length < c.devices.length :=
    Nat.mod_lt _ (by omega)
  have hstep := mainSwitchToNextDevice_eq c hsz hi
  refine ⟨hstep, hlt, ⟨_, hstep, ?_, ?_, ?_⟩, ?_, ?_⟩
  · rw [switchDevice_next_accepted c hi]
  · rw [switchDevice_next_accepted c hi]
    by_cases hlast : c.currentDeviceIndex + 1 < c.devices.length
    · simp [hlast, Nat.mod_eq_of_lt hlast]
    · have heq : c.currentDeviceIndex + 1 = c.devices.length := by omega
      simp [heq]
  · simp [switchDevice, hlt]
  · rw [mainSwitchToNextDeviceTimes_eq _ c hsz hi]
    have hback : (c.currentDeviceIndex + c.devices.length) % c.devices.length
        = c.currentDeviceIndex := by
      rw [Nat.add_mod_right]
      exact Nat.mod_eq_of_lt hi
    rw [hback]
  · intro k
    simp [mainSwitchToNextDevice, getDeviceCount]

/-- The statement of C15 at a three-device container whose current index is the last
one: the step wraps to index 0, and three steps come back to index 2. -/
theorem mainSwitchToNextDevice_cyclic_witness :
    (∃ r, mainSwitchToNextDevice
          (MeasurementDeviceContainer.mk
            [sampleDevice "a" 0 1, sampleDevice "b" 0 1, sampleDevice "c" 0 1] 2) = some r
        ∧ r.1.devices = [sampleDevice "a" 0 1, sampleDevice "b" 0 1, sampleDevice "c" 0 1]
        ∧ r.1.currentDeviceIndex = 0
        ∧ r.2 = ["Switched to device 1\n"])
    ∧ mainSwitchToNextDeviceTimes 3
          (MeasurementDeviceContainer.mk
            [sampleDevice "a" 0 1, sampleDevice "b" 0 1, sampleDevice "c" 0 1] 2)
        = some (MeasurementDeviceContainer.mk
            [sampleDevice "a" 0 1, sampleDevice "b" 0 1, sampleDevice "c" 0 1] 2) :=
  have h := mainSwitchToNextDevice_cyclic
    (MeasurementDeviceContainer.mk
      [sampleDevice "a" 0 1, sampleDevice "b" 0 1, sampleDevice "c" 0 1] 2)
    (by decide) (by decide) (by decide)
  ⟨h.2.2.1, h.2.2.2.1⟩

/-! ## The current index under the other operations -/

/-- C16: addDeviceToFront, addDeviceToBack, addDeviceAt (accepted or rejected),
findDevicesByName and the three sorts leave the current index as it was; switchDevice
changes it only when accepted. So when the current index selects a device and a device
is inserted at a position at or before it (addDeviceToFront being the insertion at
position 0), getCurrentDevice afterwards returns the new
device (insertion exactly at the current index) or the device that was one place before
the current index, while the device selected before now sits one place after the current
index; when the stored devices and the new one are all distinct, the device returned
afterwards is not the one returned before. -/
theorem current_index_frame (c : MeasurementDeviceContainer) (d : Device) (i : Nat)
    (s : String) :
    (c.addDeviceToFront d).currentDeviceIndex = c.currentDeviceIndex
    ∧ (c.addDeviceToBack d).currentDeviceIndex = c.currentDeviceIndex
    ∧ (c.addDeviceAt d i).1.currentDeviceIndex = c.currentDeviceIndex
    ∧ (c.findDevicesByName s).1.currentDeviceIndex = c.currentDeviceIndex
    ∧ c.sortDevicesByMinValue.currentDeviceIndex = c.currentDeviceIndex
    ∧ c.sortDevicesByMaxValue.currentDeviceIndex = c.currentDeviceIndex
    ∧ c.sortDevicesByTemperature.currentDeviceIndex = c.currentDeviceIndex
    ∧ (c.switchDevice i).1.currentDeviceIndex
        = (if i < c.devices.length then i else c.currentDeviceIndex)
    ∧ (c.addDeviceToFront d).getCurrentDevice = (c.addDeviceAt d 0).1.getCurrentDevice
    ∧ (∀ (hcur : c.currentDeviceIndex < c.devices.length), i ≤ c.currentDeviceIndex →
        c.getCurrentDevice = .ok (some (c.devices.get ⟨c.currentDeviceIndex, hcur⟩))
        ∧ (c.addDeviceAt d i).1.getCurrentDevice
            = .ok (some (if i = c.currentDeviceIndex then d
                else c.devices.get ⟨c.currentDeviceIndex - 1, by omega⟩))
        ∧ (c.addDeviceAt d i).1.devices[c.currentDeviceIndex + 1]?
            = some (c.devices.get ⟨c.currentDeviceIndex, hcur⟩)
        ∧ ((d :: c.devices).Nodup →
            (c.addDeviceAt d i).1.getCurrentDevice ≠ c.getCurrentDevice)) := by
  refine ⟨rfl, rfl, ?_, rfl, rfl, rfl, rfl, ?_, ?_, ?_⟩
  · by_cases h : i ≤ c.devices.length <;> simp [addDeviceAt, h]
  · by_cases h : i < c.devices.length <;> simp [switchDevice, h]
  · simp [addDeviceToFront, addDeviceAt]
  · intro hcur hi
    have hpos : i ≤ c.devices.length := by omega
    have hadd : (c.addDeviceAt d i).1 = { c with devices := vectorInsert c.devices i d } := by
      simp [addDeviceAt, hpos]
    have hne : c.devices ≠ [] := by
      intro h0
      rw [h0] at hcur
      simp at hcur
    have hlen := vectorInsert_length c.devices i d
    have hne' : vectorInsert c.devices i d ≠ [] := by
      intro h0
      rw [h0] at hlen
      simp at hlen
    have hold : c.devices[c.currentDeviceIndex]?
        = some (c.devices.get ⟨c.currentDeviceIndex, hcur⟩) :=
      List.getElem?_eq_getElem hcur
    have hbefore : c.getCurrentDevice
        = .ok (some (c.devices.get ⟨c.currentDeviceIndex, hcur⟩)) := by
      simp [getCurrentDevice, hne, hold]
    have hnew : (vectorInsert c.devices i d)[c.currentDeviceIndex]?
        = some (if i = c.currentDeviceIndex then d
            else c.devices.get ⟨c.currentDeviceIndex - 1, by omega⟩) := by
      by_cases heq : i = c.currentDeviceIndex
      · rw [if_pos heq, ← heq]
        exact vectorInsert_getElem? c.devices i d hpos
      · rw [if_neg heq]
        have hsucc : c.currentDeviceIndex = (c.currentDeviceIndex - 1) + 1 := by omega
        have hshift := vectorInsert_getElem?_after c.devices i d (c.currentDeviceIndex - 1)
          hpos (by omega)
        rw [← hsucc] at hshift
        rw [hshift]
        exact List.getElem?_eq_getElem (by omega)
    have hafter : (c.addDeviceAt d i).1.getCurrentDevice
        = .ok (some (if i = c.currentDeviceIndex then d
            else c.devices.get ⟨c.currentDeviceIndex - 1, by omega⟩)) := by
      rw [hadd]
      simp [getCurrentDevice, hne', hnew]
    refine ⟨hbefore, hafter, ?_, ?_⟩
    · rw [hadd]
      show (vectorInsert c.devices i d)[c.currentDeviceIndex + 1]? = _
      rw [vectorInsert_getElem?_after c.devices i d c.currentDeviceIndex hpos hi]
      exact hold
    · intro hnodup hsame
      rw [hafter, hbefore] at hsame
      have hval : (if i = c.currentDeviceIndex then d
            else c.devices.get ⟨c.currentDeviceIndex - 1, by omega⟩)
          = c.devices.get ⟨c.currentDeviceIndex, hcur⟩ := by
        injection hsame with h1
        injection h1
      rw [List.nodup_cons] at hnodup
      by_cases heq : i = c.currentDeviceIndex
      · rw [if_pos heq] at hval
        apply hnodup.1
        rw [hval]
        exact List.get_mem _ _ _
      · rw [if_neg heq] at hval
        have hidx := (hnodup.2.get_inj_iff).mp hval
        have hidx' : c.currentDeviceIndex - 1 = c.currentDeviceIndex := by
          simpa using congrArg Fin.val hidx
        omega

/-- The statement of C16 at a three-device container with current index 1: after an
insertion at position 0 the current device is the one that was at position 0, after an
insertion at position 1 it is the new device, and in both cases it is not the device
selected before. -/
theorem current_index_frame_witness :
    ((MeasurementDeviceContainer.mk
          [sampleDevice "a" 0 1, sampleDevice "b" 0 1, sampleDevice "c" 0 1] 1).addDeviceAt
        (sampleDevice "new" 2 3) 0).1.getCurrentDevice = .ok (some (sampleDevice "a" 0 1))
    ∧ ((MeasurementDeviceContainer.mk
          [sampleDevice "a" 0 1, sampleDevice "b" 0 1, sampleDevice "c" 0 1] 1).addDeviceAt
        (sampleDevice "new" 2 3) 1).1.getCurrentDevice
      ≠ (MeasurementDeviceContainer.mk
          [sampleDevice "a" 0 1, sampleDevice "b" 0 1, sampleDevice "c" 0 1]
          1).getCurrentDevice :=
  ⟨((current_index_frame
      (MeasurementDeviceContainer.mk
        [sampleDevice "a" 0 1, sampleDevice "b" 0 1, sampleDevice "c" 0 1] 1)
      (sampleDevice "new" 2 3) 0 "a").2.2.2.2.2.2.2.2.2 (by decide) (by decide)).2.1,
   ((current_index_frame
      (MeasurementDeviceContainer.mk
        [sampleDevice "a" 0 1, sampleDevice "b" 0 1, sampleDevice "c" 0 1] 1)
      (sampleDevice "new" 2 3) 1 "a").2.2.2.2.2.2.2.2.2 (by decide) (by decide)).2.2.2
      (by decide)⟩

end OopLaba7
